import Mathlib

/-!
Verification of the habit-tracking application's synchronization engine and
persistence layer, shallowly embedded from the Python sources
(`src/database/db.py`, `src/database/habit.py`, `src/database/task.py`,
`src/database/report.py`, `src/commands/sync_tasks.py`, `src/main.py`).

Timestamps are stored by the application as `YYYY-MM-DD HH:MM:SS` strings in
local time (`datetime('now','localtime')`, `DATE_FORMAT`); comparing two such
strings in SQLite is lexicographic, which for well-formed components agrees
with comparing the numeric tuple (year, month, day, hour, minute, second).
We model a timestamp as that tuple and order it through the numeric key below.
All wall-clock values are local time, so the `LOCALTIME` conversions that
appear in the SQL cancel against the localtime-stored columns (the UTC offset
is assumed constant).
-/

namespace HabitApp

/-- A wall-clock timestamp `YYYY-MM-DD HH:MM:SS` as its six components. -/
structure DateTime where
  year : Nat
  month : Nat
  day : Nat
  hour : Nat
  minute : Nat
  second : Nat
deriving Repr, DecidableEq

/-- Numeric key realizing the lexicographic (string) order of the
`YYYY-MM-DD HH:MM:SS` representation, components assumed < 100 except year. -/
def DateTime.key (t : DateTime) : Nat :=
  ((((t.year * 100 + t.month) * 100 + t.day) * 100 + t.hour) * 100 + t.minute) * 100
    + t.second

/-- The `a <= b` as SQLite compares the stored timestamp strings. -/
def dtLe (a b : DateTime) : Bool :=
  a.key ≤ b.key

/-- Proleptic Gregorian leap-year test. -/
def isLeap (y : Nat) : Bool :=
  (y % 4 == 0 && y % 100 != 0) || (y % 400 == 0)

/-- Serial day number of a civil date (March-shifted era decomposition).
Linear in `d`, so out-of-range days roll over into the next month exactly the
way SQLite's `computeJD` normalizes a date such as `2024-02-31`. -/
def daysFromCivil (y m d : Nat) : Nat :=
  let y' := if m ≤ 2 then y - 1 else y
  let era := y' / 400
  let yoe := y' % 400
  let mp := (m + 9) % 12
  let doy := (153 * mp + 2) / 5 + d - 1
  let doe := yoe * 365 + yoe / 4 - yoe / 100 + doy
  era * 146097 + doe

/-- Civil date of a serial day number (inverse of `daysFromCivil`). -/
def civilFromDays (n : Nat) : Nat × Nat × Nat :=
  let era := n / 146097
  let doe := n % 146097
  let yoe := (doe - doe / 1460 + doe / 36524 - doe / 146096) / 365
  let y' := yoe + era * 400
  let doy := doe - (365 * yoe + yoe / 4 - yoe / 100)
  let mp := (5 * doy + 2) / 153
  let d := doy - (153 * mp + 2) / 5 + 1
  let m := if mp < 10 then mp + 3 else mp - 9
  (if m ≤ 2 then y' + 1 else y', m, d)

/-- The `t - timedelta(days = k)` on a Python `datetime`: exact multiples of
24 hours, the time of day unchanged. -/
def DateTime.subDays (t : DateTime) (k : Nat) : DateTime :=
  let n := daysFromCivil t.year t.month t.day - k
  let c := civilFromDays n
  ⟨c.1, c.2.1, c.2.2, t.hour, t.minute, t.second⟩

/-- SQLite's `-1 month` modifier: decrement the month number (borrowing from
the year), keep the day, then normalize the possibly out-of-range date by a
round trip through the serial day number (so `2024-03-31` minus one month
normalizes to `2024-03-02`). -/
def DateTime.subOneMonth (t : DateTime) : DateTime :=
  let ym := if t.month = 1 then (t.year - 1, 12) else (t.year, t.month - 1)
  let c := civilFromDays (daysFromCivil ym.1 ym.2 t.day)
  ⟨c.1, c.2.1, c.2.2, t.hour, t.minute, t.second⟩

/-- The date/time modifiers appearing in `DB.sync_states`
(`db.py`, lines 245-251): `'-1 DAY'`, `'-1 WEEK'`, `'-1 MONTH'`. -/
inductive SqlMod
  | minusOneDay
  | minusOneWeek
  | minusOneMonth
deriving Repr, DecidableEq

/-- The `datetime(now, modifier, 'LOCALTIME')` as SQLite 3 evaluates it.
`'-1 WEEK'` is **not** a recognized SQLite date modifier ("NNN days",
"NNN months", ... — there is no week unit), so the whole `datetime()` call
returns NULL, modelled as `none`. -/
def sqlDateTimeMinus (now : DateTime) : SqlMod → Option DateTime
  | .minusOneDay => some (now.subDays 1)
  | .minusOneWeek => none
  | .minusOneMonth => some now.subOneMonth

/-- SQL comparison `a <= b` where `b` may be NULL: a NULL comparand makes the
predicate NULL, which never satisfies a `WHERE` clause, modelled as `false`. -/
def sqlLeOpt (a : DateTime) : Option DateTime → Bool
  | none => false
  | some b => dtLe a b

/-- The `Periodicity` enumeration (`src/database/types.py`). -/
inductive Periodicity
  | DAILY
  | WEEKLY
  | MONTHLY
deriving Repr, DecidableEq

/-- The `.value` of each member, the string stored in the `periodicity`
column. -/
def Periodicity.val : Periodicity → String
  | .DAILY => "Every Day"
  | .WEEKLY => "Every Week"
  | .MONTHLY => "Every Month"

/-- What a Python f-string interpolation `f'{Periodicity.DAILY}'` of the plain
`Enum` member renders (used verbatim in the SQL built by `Habit.objects`,
`habit.py` lines 87-101): the member's qualified name, **not** its value. -/
def Periodicity.pyStr : Periodicity → String
  | .DAILY => "Periodicity.DAILY"
  | .WEEKLY => "Periodicity.WEEKLY"
  | .MONTHLY => "Periodicity.MONTHLY"

/-! ## Rows and database state -/

/-- A value held in a Python dict entry / SQLite column binding. -/
inductive PyVal
  | vInt : Int → PyVal
  | vStr : String → PyVal
deriving Repr, DecidableEq

/-- A row as produced by the `as_dictionary` row factory (`db.py`):
column names mapped to values. -/
abbrev DictRow := List (String × PyVal)

def kIdHabit : String := "id_habit"

def kName : String := "name"

def kStreak : String := "streak"

def kCurrentStreak : String := "current_streak"

def kCompletedCount : String := "completed_tasks_count"

def kUncompletedCount : String := "uncompleted_tasks_count"

/-- Python `dict.get(key)`: `None` (here `none`) when the key is absent. -/
def dget (d : DictRow) (k : String) : Option PyVal :=
  (d.find? (fun p => p.1 == k)).map (fun p => p.2)

/-- A row of the `habits` table (`DB._migrate`). -/
structure HabitRow where
  id_habit : Int
  name : String
  periodicity : Periodicity
  streak : Int
  template : List String
  created_at : DateTime
  updated_at : DateTime
deriving Repr, DecidableEq

/-- A row of the `tasks` table (`DB._migrate`). -/
structure TaskRow where
  id_task : Int
  id_habit : Int
  task : String
  completed : Bool
  created_at : DateTime
  updated_at : DateTime
deriving Repr, DecidableEq

/-- A row of the `reports` table (`DB._migrate`). The first five data columns
are bound from a Python dict by `DB.generate_report`, so each is an optional
value: a missing dict key is bound as SQL NULL. `current_streak` is the one
column the DDL leaves nullable; in the sync flow all the NOT NULL columns are
bound to present keys, so those constraints never fire. `raw_data` holds the
serialized archived batch. -/
structure ReportRow where
  id_report : Int
  id_habit : Option PyVal
  name : Option PyVal
  current_streak : Option PyVal
  completed_tasks_count : Option PyVal
  uncompleted_tasks_count : Option PyVal
  created_at : DateTime
  raw_data : List TaskRow
deriving Repr, DecidableEq

/-- The durable (committed) contents of the SQLite database, together with
the three AUTOINCREMENT counters. -/
structure DBState where
  habits : List HabitRow
  tasks : List TaskRow
  reports : List ReportRow
  nextHabitId : Int
  nextTaskId : Int
  nextReportId : Int
deriving Repr, DecidableEq

/-! ## Queries -/

/-- The tasks owned by habit `i` (`select ... from tasks where id_habit = ?`). -/
def tasksOf (tasks : List TaskRow) (i : Int) : List TaskRow :=
  tasks.filter (fun t => t.id_habit == i)

/-- The `select count(*) from tasks where completed is TRUE and id_habit = ?`. -/
def completedCount (tasks : List TaskRow) (i : Int) : Nat :=
  (tasks.filter (fun t => t.completed && t.id_habit == i)).length

/-- The `select count(*) from tasks where completed is not TRUE and id_habit = ?`. -/
def uncompletedCount (tasks : List TaskRow) (i : Int) : Nat :=
  (tasks.filter (fun t => !t.completed && t.id_habit == i)).length

/-- The WHERE clause of `DB.sync_states` (`db.py`, lines 233-255) applied to
one habit row. Each period disjunct compares `updated_at` against
`datetime('now', modifier, 'LOCALTIME')` and tests the stored periodicity
string. The `'-1 WEEK'` comparand is NULL (see `sqlDateTimeMinus`), and in
SQL three-valued logic a NULL comparison can make its conjunct NULL but never
TRUE, so the row is selected exactly when some other disjunct is TRUE; that
is what the `false`-on-NULL reading of `sqlLeOpt` computes. -/
def syncFinished (now : DateTime) (tasks : List TaskRow) (h : HabitRow) : Bool :=
  (sqlLeOpt h.updated_at (sqlDateTimeMinus now .minusOneDay)
      && h.periodicity.val == Periodicity.DAILY.val)
    || (sqlLeOpt h.updated_at (sqlDateTimeMinus now .minusOneWeek)
      && h.periodicity.val == Periodicity.WEEKLY.val)
    || (sqlLeOpt h.updated_at (sqlDateTimeMinus now .minusOneMonth)
      && h.periodicity.val == Periodicity.MONTHLY.val)
    || uncompletedCount tasks h.id_habit == 0

/-- The `finished=True` filter of `Habit.objects` (`habit.py`, lines 83-101)
applied to one habit row. The thresholds are Python
`timestamp - timedelta(days = 1 | 7 | 30)`, but each period conjunct compares
the stored periodicity value (`'Every Day'`, ...) against the f-string
rendering of the enum member (`'Periodicity.DAILY'`, ...), so the three
period disjuncts are never true and only the zero-uncompleted-tasks disjunct
can select a habit. -/
def habitObjectsFinished (timestamp : DateTime) (tasks : List TaskRow) (h : HabitRow) : Bool :=
  (dtLe h.updated_at (timestamp.subDays 1)
      && h.periodicity.val == Periodicity.DAILY.pyStr)
    || (dtLe h.updated_at (timestamp.subDays 7)
      && h.periodicity.val == Periodicity.WEEKLY.pyStr)
    || (dtLe h.updated_at (timestamp.subDays 30)
      && h.periodicity.val == Periodicity.MONTHLY.pyStr)
    || uncompletedCount tasks h.id_habit == 0

/-- The finish predicate exactly as §4.1 of the spec (claim C1) states it:
DAILY and `now - updated_at ≥ 1 day`, or WEEKLY and `≥ 7 days`, or MONTHLY
and `≥ 30 days`, or zero uncompleted tasks. Stated from the spec's words (for
each period, `now - updated_at ≥ k days` iff `updated_at ≤ now - k days`),
to be compared with the two source predicates above. -/
def specFinished (now : DateTime) (tasks : List TaskRow) (h : HabitRow) : Bool :=
  (h.periodicity == .DAILY && dtLe h.updated_at (now.subDays 1))
    || (h.periodicity == .WEEKLY && dtLe h.updated_at (now.subDays 7))
    || (h.periodicity == .MONTHLY && dtLe h.updated_at (now.subDays 30))
    || uncompletedCount tasks h.id_habit == 0

/-- The dict row the `DB.sync_states` SELECT produces for one selected habit:
exactly the five selected columns, under their SQL names (`h.streak` is
selected without an alias, so its key is `streak`). -/
def syncRow (tasks : List TaskRow) (h : HabitRow) : DictRow :=
  [(kIdHabit, .vInt h.id_habit), (kName, .vStr h.name), (kStreak, .vInt h.streak),
    (kCompletedCount, .vInt (completedCount tasks h.id_habit : Int)),
    (kUncompletedCount, .vInt (uncompletedCount tasks h.id_habit : Int))]

/-- The `DB.sync_states`: the rows for the habits satisfying the finish WHERE
clause, with the two counts evaluated against the same task table. -/
def sync_states (now : DateTime) (s : DBState) : List DictRow :=
  (s.habits.filter (syncFinished now s.tasks)).map (syncRow s.tasks)

/-- The `DB.select_tasks(id_habit)`: tasks of the given habit joined with
`habits` (the join keeps exactly the tasks whose owning habit row exists; the
display-only projection of the joined columns is dropped). A NULL or
non-integer id matches no rows. -/
def select_tasks (s : DBState) (v : Option PyVal) : List TaskRow :=
  match v with
  | some (.vInt i) =>
    s.tasks.filter (fun t => t.id_habit == i && s.habits.any (fun h => h.id_habit == t.id_habit))
  | _ => []

/-- The `DB.select_habits_to_fulfill`: habits whose task count is zero. -/
def select_habits_to_fulfill (s : DBState) : List HabitRow :=
  s.habits.filter (fun h => (tasksOf s.tasks h.id_habit).length == 0)

/-! ## Mutating operations -/

/-- The `UPDATE habits set updated_at = datetime('now','localtime') where id_habit = ?`. -/
def touchHabits (now : DateTime) (i : Int) (hs : List HabitRow) : List HabitRow :=
  hs.map (fun h => if h.id_habit == i then { h with updated_at := now } else h)

/-- The `DB.create_task`: insert a task (defaults: not completed, timestamps
`now`) and touch the owning habit's `updated_at`. With
`PRAGMA foreign_keys = ON`, inserting for a nonexistent habit violates the
foreign key and the statement aborts with the state unchanged. -/
def create_task (now : DateTime) (i : Int) (desc : String) (s : DBState) : DBState :=
  if s.habits.any (fun h => h.id_habit == i) then
    { s with
      tasks := s.tasks ++ [⟨s.nextTaskId, i, desc, false, now, now⟩],
      nextTaskId := s.nextTaskId + 1,
      habits := touchHabits now i s.habits }
  else s

/-- Modelled from the spec: `DB.create_task_from_habit` is called by the sync
command (`src/commands/sync_tasks.py`, line 41) but its definition is absent
from the sources. Per §4.1 Step B it creates one Task per entry of the
habit's template, in template order, through the task-creation operation
(which also touches the habit's `updated_at`); this matches the earlier
inline refill loop in `src/main.py` and `Task.from_habit` in
`src/database/task.py`. -/
def create_task_from_habit (now : DateTime) (h : HabitRow) (s : DBState) : DBState :=
  h.template.foldl (fun st d => create_task now h.id_habit d st) s

/-- Step B of `sync_tasks`: refill every habit currently owning zero tasks.
`fetchall()` materializes the selection before the loop runs. -/
def stepB (now : DateTime) (s : DBState) : DBState :=
  (select_habits_to_fulfill s).foldl (fun st h => create_task_from_habit now h st) s

/-- Python `habit.get('uncompleted_tasks_count') == 0`: false when the key is
absent (`None == 0`) or holds a non-integer. -/
def pyEqZero : Option PyVal → Bool
  | some (.vInt n) => n == 0
  | _ => false

/-- First committed statement of `DB.generate_report`: the INSERT INTO
`reports`, binding each column from the Python dict (`habit.get(...)`). -/
def grInsertReport (now : DateTime) (habit : DictRow) (task_list : List TaskRow)
    (s : DBState) : DBState :=
  { s with
    reports := s.reports ++ [⟨s.nextReportId, dget habit kIdHabit, dget habit kName,
      dget habit kCurrentStreak, dget habit kCompletedCount, dget habit kUncompletedCount,
      now, task_list⟩],
    nextReportId := s.nextReportId + 1 }

/-- The `DB.cleanup_tasks`: `DELETE FROM tasks WHERE id_habit = ?`. -/
def cleanup_tasks (i : Int) (s : DBState) : DBState :=
  { s with tasks := s.tasks.filter (fun t => t.id_habit != i) }

/-- The `cleanup_tasks` with the id taken from a dict value: a NULL or
non-integer id matches no rows. -/
def cleanupTasksOpt (v : Option PyVal) (s : DBState) : DBState :=
  match v with
  | some (.vInt i) => cleanup_tasks i s
  | _ => s

/-- The `DB.bump_streak`: `streak = streak + 1`, `updated_at = now`. -/
def bump_streak (now : DateTime) (i : Int) (s : DBState) : DBState :=
  { s with habits := s.habits.map (fun h =>
      if h.id_habit == i then { h with streak := h.streak + 1, updated_at := now } else h) }

/-- The `DB.reset_streak`: `streak = 0`, `updated_at = now`. -/
def reset_streak (now : DateTime) (i : Int) (s : DBState) : DBState :=
  { s with habits := s.habits.map (fun h =>
      if h.id_habit == i then { h with streak := 0, updated_at := now } else h) }

/-- A streak update keyed by a dict value: a NULL or non-integer id matches
no rows. -/
def updStreakOpt (f : Int → DBState → DBState) (v : Option PyVal) (s : DBState) : DBState :=
  match v with
  | some (.vInt i) => f i s
  | _ => s

/-- The `DB.generate_report` (`db.py`, lines 258-284): insert the report row,
delete the habit's task batch, then bump the streak if the dict's
`uncompleted_tasks_count` equals 0 and reset it otherwise. -/
def generate_report (now : DateTime) (habit : DictRow) (task_list : List TaskRow)
    (s : DBState) : DBState :=
  let s1 := grInsertReport now habit task_list s
  let s2 := cleanupTasksOpt (dget habit kIdHabit) s1
  if pyEqZero (dget habit kUncompletedCount) then
    updStreakOpt (bump_streak now) (dget habit kIdHabit) s2
  else
    updStreakOpt (reset_streak now) (dget habit kIdHabit) s2

/-- The three separately committed units of `DB.generate_report`: the INSERT
commits at line 276, `cleanup_tasks` commits its own DELETE, and
`bump_streak` / `reset_streak` commit their own UPDATE. Nothing groups them
into one transaction. -/
def generateReportCommits (now : DateTime) (habit : DictRow) (task_list : List TaskRow) :
    List (DBState → DBState) :=
  [grInsertReport now habit task_list,
    cleanupTasksOpt (dget habit kIdHabit),
    fun s =>
      if pyEqZero (dget habit kUncompletedCount) then
        updStreakOpt (bump_streak now) (dget habit kIdHabit) s
      else
        updStreakOpt (reset_streak now) (dget habit kIdHabit) s]

/-- Run a prefix of a commit sequence: the durable state after a storage
failure that strikes once `k` commits have succeeded. -/
def runCommits (fs : List (DBState → DBState)) (s : DBState) : DBState :=
  fs.foldl (fun st f => f st) s

/-- Step A of `sync_tasks` (`src/commands/sync_tasks.py`, lines 36-38): for
each row of the materialized `sync_states` result, fetch the habit's current
task batch and run `generate_report` on it. -/
def stepA (now : DateTime) (s : DBState) : DBState :=
  (sync_states now s).foldl
    (fun st row => generate_report now row (select_tasks st (dget row kIdHabit)) st) s

/-- The two SQLite integrity errors the embedded statements can raise. -/
inductive SqlErr
  | uniqueViolation
  | foreignKeyViolation
deriving Repr, DecidableEq

instance {ε α : Type _} [DecidableEq ε] [DecidableEq α] : DecidableEq (Except ε α)
  | .ok a, .ok b => decidable_of_iff (a = b) (by simp)
  | .error a, .error b => decidable_of_iff (a = b) (by simp)
  | .ok _, .error _ => isFalse (fun h => Except.noConfusion h)
  | .error _, .ok _ => isFalse (fun h => Except.noConfusion h)

/-- The `DB.create_habit`: plain INSERT; the UNIQUE constraint on `name` rejects
a duplicate name with `sqlite3.IntegrityError` and leaves the table
unchanged. New habits get streak 0 and fresh timestamps (column defaults). -/
def create_habit (now : DateTime) (name : String) (p : Periodicity)
    (task_template : List String) (s : DBState) : Except SqlErr DBState :=
  if s.habits.any (fun h => h.name == name) then .error .uniqueViolation
  else .ok { s with
    habits := s.habits ++ [⟨s.nextHabitId, name, p, 0, task_template, now, now⟩],
    nextHabitId := s.nextHabitId + 1 }

/-- The `DB.delete_habit` (also `Habit.delete`): `DELETE FROM tasks WHERE
id_habit = ?` then `DELETE FROM habits WHERE id_habit = ?`, committed
together afterwards. The `reports` table references `habits` with
`PRAGMA foreign_keys = ON` and no `ON DELETE` action, so deleting a habit
row that any report references raises `IntegrityError: FOREIGN KEY
constraint failed`; the commit is never reached and the durable state is
unchanged (the pending task deletion is rolled back with the transaction). -/
def delete_habit (i : Int) (s : DBState) : Except SqlErr DBState :=
  if s.habits.any (fun h => h.id_habit == i)
      && s.reports.any (fun r => r.id_habit == some (.vInt i)) then
    .error .foreignKeyViolation
  else
    .ok { s with
      tasks := s.tasks.filter (fun t => t.id_habit != i),
      habits := s.habits.filter (fun h => h.id_habit != i) }

/-- The field values of a freshly constructed, not yet persisted `Habit`
dataclass instance (`id_habit = None`). -/
structure HabitInstance where
  name : String
  periodicity : Periodicity
  template : List String
  streak : Int
  created_at : DateTime
  updated_at : DateTime
deriving Repr, DecidableEq

/-- The `Habit.save` for a new instance (`habit.py`, lines 216-222): `REPLACE
INTO habits` with `id_habit = NULL`. On a UNIQUE(`name`) conflict, REPLACE
deletes the conflicting existing row and inserts the new one (with a fresh
AUTOINCREMENT id) instead of failing; if the displaced row is referenced by
any task or report, that implicit delete violates the enforced foreign keys
and the statement aborts with the state unchanged. -/
def habit_save_new (inst : HabitInstance) (s : DBState) : Except SqlErr DBState :=
  let newRow : HabitRow :=
    ⟨s.nextHabitId, inst.name, inst.periodicity, inst.streak, inst.template,
      inst.created_at, inst.updated_at⟩
  match s.habits.find? (fun h => h.name == inst.name) with
  | some old =>
    if s.tasks.any (fun t => t.id_habit == old.id_habit)
        || s.reports.any (fun r => r.id_habit == some (.vInt old.id_habit)) then
      .error .foreignKeyViolation
    else
      .ok { s with
        habits := s.habits.filter (fun h => h.name != inst.name) ++ [newRow],
        nextHabitId := s.nextHabitId + 1 }
  | none =>
    .ok { s with habits := s.habits ++ [newRow], nextHabitId := s.nextHabitId + 1 }

/-- The `DB.update_completed`: mark a task completed and touch its `updated_at`. -/
def update_completed (now : DateTime) (i : Int) (s : DBState) : DBState :=
  { s with tasks := s.tasks.map (fun t =>
      if t.id_task == i then { t with completed := true, updated_at := now } else t) }

/-- The `SELECT * FROM habits where id_habit = ?` followed by `fetchone()`. -/
def findHabit (s : DBState) (i : Int) : Option HabitRow :=
  s.habits.find? (fun h => h.id_habit == i)

/-! ## The exposed mutating operations, as one step relation -/

/-- The mutating operations the application exposes (report queries are pure
reads of `DBState` and mutate nothing by construction). -/
inductive Op
  | opCreateHabit (now : DateTime) (name : String) (p : Periodicity) (template : List String)
  | opDeleteHabit (i : Int)
  | opCreateTask (now : DateTime) (i : Int) (desc : String)
  | opCompleteTask (now : DateTime) (i : Int)
  | opRefill (now : DateTime)
  | opArchive (now : DateTime)
deriving Repr

/-- Apply one exposed operation; a statement that raises leaves the durable
state unchanged. `opArchive` is the Step A pass, `opRefill` the Step B pass. -/
def applyOp (op : Op) (s : DBState) : DBState :=
  match op with
  | .opCreateHabit now name p template =>
    match create_habit now name p template s with
    | .ok s' => s'
    | .error _ => s
  | .opDeleteHabit i =>
    match delete_habit i s with
    | .ok s' => s'
    | .error _ => s
  | .opCreateTask now i desc => create_task now i desc s
  | .opCompleteTask now i => update_completed now i s
  | .opRefill now => stepB now s
  | .opArchive now => stepA now s

/-- Is the operation the Step A archival pass (the one containing the streak
update)? -/
def isArchive : Op → Bool
  | .opArchive _ => true
  | _ => false

/-- Run a sequence of exposed operations. -/
def runOps (ops : List Op) (s : DBState) : DBState :=
  ops.foldl (fun st op => applyOp op st) s

/-- Every habit's streak is non-negative. -/
def StreakInv (s : DBState) : Prop :=
  ∀ h ∈ s.habits, 0 ≤ h.streak

instance : DecidablePred StreakInv := fun s =>
  inferInstanceAs (Decidable (∀ h ∈ s.habits, 0 ≤ h.streak))

/-! ## Concrete fixtures for the counter-evaluations -/

def c1Now : DateTime := ⟨2024, 3, 15, 12, 0, 0⟩

def c1TaskW : TaskRow :=
  ⟨1, 1, "Run 5k", false, ⟨2024, 3, 1, 12, 0, 0⟩, ⟨2024, 3, 1, 12, 0, 0⟩⟩

def c1HabitW : HabitRow :=
  ⟨1, "Weekly run", .WEEKLY, 0, ["Run 5k"], ⟨2024, 3, 1, 12, 0, 0⟩, ⟨2024, 3, 1, 12, 0, 0⟩⟩

def c1TaskD : TaskRow :=
  ⟨2, 2, "Stretch", false, ⟨2024, 3, 10, 12, 0, 0⟩, ⟨2024, 3, 10, 12, 0, 0⟩⟩

def c1HabitD : HabitRow :=
  ⟨2, "Daily stretch", .DAILY, 0, ["Stretch"], ⟨2024, 3, 10, 12, 0, 0⟩,
    ⟨2024, 3, 10, 12, 0, 0⟩⟩

def c4Date : DateTime := ⟨2024, 3, 15, 8, 0, 0⟩

def c4Habit : HabitRow :=
  ⟨1, "Reading", .DAILY, 5, ["Read a chapter"], ⟨2024, 3, 15, 7, 0, 0⟩,
    ⟨2024, 3, 15, 7, 0, 0⟩⟩

def c4Task : TaskRow :=
  ⟨1, 1, "Read a chapter", true, ⟨2024, 3, 15, 7, 0, 0⟩, ⟨2024, 3, 15, 7, 0, 0⟩⟩

def c4State : DBState := ⟨[c4Habit], [c4Task], [], 2, 2, 1⟩

def c4Row : DictRow := syncRow c4State.tasks c4Habit

def c6Date : DateTime := ⟨2024, 3, 15, 12, 0, 0⟩

def c6Habit : HabitRow :=
  ⟨1, "Gym", .DAILY, 2, ["Warm up", "Lift"], ⟨2024, 3, 10, 12, 0, 0⟩,
    ⟨2024, 3, 10, 12, 0, 0⟩⟩

def c6TaskA : TaskRow :=
  ⟨1, 1, "Warm up", true, ⟨2024, 3, 10, 12, 0, 0⟩, ⟨2024, 3, 10, 12, 0, 0⟩⟩

def c6TaskB : TaskRow :=
  ⟨2, 1, "Lift", false, ⟨2024, 3, 10, 12, 0, 0⟩, ⟨2024, 3, 10, 12, 0, 0⟩⟩

def c6State : DBState := ⟨[c6Habit], [c6TaskA, c6TaskB], [], 2, 3, 1⟩

def c6Row : DictRow := syncRow c6State.tasks c6Habit

def c6Batch : List TaskRow := select_tasks c6State (dget c6Row kIdHabit)

def c7Date : DateTime := ⟨2024, 4, 1, 9, 0, 0⟩

def c7Old : HabitRow :=
  ⟨1, "Reading", .DAILY, 5, ["Read a chapter"], ⟨2024, 3, 1, 9, 0, 0⟩,
    ⟨2024, 3, 1, 9, 0, 0⟩⟩

def c7State : DBState := ⟨[c7Old], [], [], 2, 1, 1⟩

def c7Inst : HabitInstance := ⟨"Reading", .WEEKLY, ["Skim notes"], 0, c7Date, c7Date⟩

def c7After : DBState :=
  ⟨[⟨2, "Reading", .WEEKLY, 0, ["Skim notes"], c7Date, c7Date⟩], [], [], 3, 1, 1⟩

/-- C7. Persisting a new habit whose name already exists does not fail on the
path the CLI create command uses: `Habit.save` issues `REPLACE INTO`, which
silently deletes the existing habit (here id 1, streak 5) and inserts the new
instance under a fresh id — no duplicate-name error, and the existing habit
is destroyed. `DB.create_habit` (plain INSERT), by contrast, does reject the
duplicate as the claim states. -/

def c8Date : DateTime := ⟨2024, 3, 1, 10, 0, 0⟩

def c8HabitA : HabitRow := ⟨1, "A", .DAILY, 1, ["x"], c8Date, c8Date⟩

def c8HabitB : HabitRow := ⟨2, "B", .DAILY, 0, ["y"], c8Date, c8Date⟩

def c8TaskA : TaskRow := ⟨1, 1, "x", false, c8Date, c8Date⟩

def c8TaskB : TaskRow := ⟨2, 2, "y", false, c8Date, c8Date⟩

def c8Report : ReportRow :=
  ⟨1, some (.vInt 1), some (.vStr ("A")), none, some (.vInt 1), some (.vInt 0), c8Date, []⟩

def c8State : DBState := ⟨[c8HabitA, c8HabitB], [c8TaskA, c8TaskB], [c8Report], 3, 3, 2⟩

def c8After : DBState := ⟨[c8HabitA], [c8TaskA], [c8Report], 3, 3, 2⟩

def w2Date : DateTime := ⟨2024, 5, 2, 18, 0, 0⟩

def w2Habit : HabitRow :=
  ⟨1, "Journal", .DAILY, 3, ["Write"], ⟨2024, 5, 1, 18, 0, 0⟩, ⟨2024, 5, 1, 18, 0, 0⟩⟩

def w2Task : TaskRow :=
  ⟨1, 1, "Write", false, ⟨2024, 5, 1, 18, 0, 0⟩, ⟨2024, 5, 1, 18, 0, 0⟩⟩

def w2State : DBState := ⟨[w2Habit], [w2Task], [], 2, 2, 1⟩

def w5Date : DateTime := ⟨2024, 6, 3, 7, 30, 0⟩

def w5Habit : HabitRow :=
  ⟨4, "Hydrate", .WEEKLY, 2, ["Morning", "Evening"], ⟨2024, 6, 1, 7, 0, 0⟩,
    ⟨2024, 6, 1, 7, 0, 0⟩⟩

def w5TaskA : TaskRow :=
  ⟨7, 4, "Morning", true, ⟨2024, 6, 1, 7, 0, 0⟩, ⟨2024, 6, 2, 7, 0, 0⟩⟩

def w5TaskB : TaskRow :=
  ⟨8, 4, "Evening", false, ⟨2024, 6, 1, 7, 0, 0⟩, ⟨2024, 6, 1, 7, 0, 0⟩⟩

def w5State : DBState := ⟨[w5Habit], [w5TaskA, w5TaskB], [], 5, 9, 3⟩

def w3Date : DateTime := ⟨2024, 7, 1, 6, 0, 0⟩

def w3HabitA : HabitRow :=
  ⟨1, "Stretch", .DAILY, 0, ["Neck", "Back"], ⟨2024, 6, 30, 6, 0, 0⟩,
    ⟨2024, 6, 30, 6, 0, 0⟩⟩

def w3HabitB : HabitRow :=
  ⟨2, "Cook", .WEEKLY, 1, ["Plan"], ⟨2024, 6, 30, 6, 0, 0⟩, ⟨2024, 6, 30, 6, 0, 0⟩⟩

def w3Task : TaskRow :=
  ⟨5, 2, "Plan", false, ⟨2024, 6, 30, 6, 0, 0⟩, ⟨2024, 6, 30, 6, 0, 0⟩⟩

def w3State : DBState := ⟨[w3HabitA, w3HabitB], [w3Task], [], 3, 6, 1⟩

/-- The id and template of a habit row (both untouched by refill). -/
def projTemplate (h : HabitRow) : Int × List String :=
  (h.id_habit, h.template)

/-- The id and streak of a habit row (untouched by every non-archive
operation). -/
def projStreak (h : HabitRow) : Int × Int :=
  (h.id_habit, h.streak)

def w9Date : DateTime := ⟨2024, 8, 1, 6, 0, 0⟩

def w9DateB : DateTime := ⟨2024, 8, 1, 6, 5, 0⟩

def w9Habit : HabitRow :=
  ⟨1, "Walk", .DAILY, 0, ["Morning walk"], ⟨2024, 7, 31, 6, 0, 0⟩,
    ⟨2024, 7, 31, 6, 0, 0⟩⟩

def w9State : DBState := ⟨[w9Habit], [], [], 2, 1, 1⟩

def w10Habit : HabitRow :=
  ⟨1, "Meditate", .DAILY, 0, ["Sit"], ⟨2024, 9, 1, 8, 0, 0⟩, ⟨2024, 9, 1, 8, 0, 0⟩⟩

def w10State : DBState := ⟨[w10Habit], [], [], 2, 1, 1⟩

/-- C1. The claim's finish classification (periodicity threshold elapsed or
zero uncompleted tasks) does not match either source predicate. A WEEKLY
habit 14 days stale with an uncompleted task is finished per the claim but is
not selected by `DB.sync_states` (its `'-1 WEEK'` comparand is NULL, and the
other disjuncts fail), and a DAILY habit 5 days stale with an uncompleted
task — the scenario the repository's own `test_delete_task_overdue` asserts
is returned — is finished per the claim but not selected by the
`Habit.objects` finished filter (its period literals are the f-string enum
renderings, which never equal the stored values). -/
theorem sync_misses_stale_weekly_habit :
    specFinished c1Now [c1TaskW] c1HabitW = true
      ∧ syncFinished c1Now [c1TaskW] c1HabitW = false
      ∧ specFinished c1Now [c1TaskD] c1HabitD = true
      ∧ habitObjectsFinished c1Now [c1TaskD] c1HabitD = false := by
  decide

/-- C4. A habit with streak 5 goes through a finish cycle (it is selected by
`sync_states`: its batch is fully completed), yet the report row the cycle
inserts has `current_streak` NULL, not 5: the `sync_states` row carries the
streak under the key `streak`, while `DB.generate_report` reads
`habit.get('current_streak')`, which is absent, so `None` is bound into the
nullable column. -/
theorem report_records_null_current_streak :
    syncFinished c4Date c4State.tasks c4Habit = true
      ∧ dget c4Row kStreak = some (.vInt 5)
      ∧ (generate_report c4Date c4Row (select_tasks c4State (dget c4Row kIdHabit))
          c4State).reports.map (fun r => r.current_streak) = [none] := by
  decide

/-- C6. The archive/restreak sequence is not atomic: `DB.generate_report`
commits the report INSERT on its own before `cleanup_tasks` and the streak
update run. The durable state after only that first commit (a storage
failure striking there) holds the report for the batch while the batch is
undeleted and the streak untouched — exactly the state the claim says can
never exist. -/
theorem generate_report_first_commit_leaves_batch :
    (runCommits ((generateReportCommits c6Date c6Row c6Batch).take 1) c6State).reports.map
        (fun r => r.raw_data) = [c6Batch]
      ∧ c6Batch ≠ []
      ∧ (runCommits ((generateReportCommits c6Date c6Row c6Batch).take 1) c6State).tasks
        = c6State.tasks
      ∧ findHabit (runCommits ((generateReportCommits c6Date c6Row c6Batch).take 1) c6State) 1
        = some c6Habit := by
  decide

theorem habit_save_replaces_duplicate_name :
    habit_save_new c7Inst c7State = .ok c7After
      ∧ findHabit c7State 1 = some c7Old
      ∧ findHabit c7After 1 = none
      ∧ create_habit c7Date ("Reading") .WEEKLY (["Skim notes"]) c7State
        = .error .uniqueViolation := by
  decide

/-- C8. Deleting a habit that has a historical report does not remove the
habit and its tasks: the `reports` table references `habits` with enforced
foreign keys and no delete action, so `DB.delete_habit` raises and nothing is
durably deleted. A habit without reports (id 2) deletes as the claim
describes, leaving the other habit's records and the reports unchanged. -/
theorem delete_habit_blocked_by_reports :
    delete_habit 1 c8State = .error .foreignKeyViolation
      ∧ delete_habit 2 c8State = .ok c8After
      ∧ findHabit c8After 1 = some c8HabitA
      ∧ c8After.reports = c8State.reports := by
  decide

/-! ## Helper lemmas -/

lemma find?_map_pres {α : Type _} (l : List α) (p : α → Bool) (f : α → α)
    (hf : ∀ a, p (f a) = p a) :
    (l.map f).find? p = (l.find? p).map f := by
  rw [List.find?_map]
  have : p ∘ f = p := funext hf
  rw [this]

lemma find?_update_self (hs : List HabitRow) (i : Int) (g : HabitRow → HabitRow)
    (hg : ∀ h, (g h).id_habit = h.id_habit) :
    (hs.map (fun h => if h.id_habit == i then g h else h)).find? (fun h => h.id_habit == i)
      = (hs.find? (fun h => h.id_habit == i)).map g := by
  rw [find?_map_pres]
  · cases hf : hs.find? (fun h => h.id_habit == i) with
    | none => rfl
    | some h =>
      have hp : h.id_habit = i := by simpa using List.find?_some hf
      simp [hp]
  · intro a
    by_cases ha : (a.id_habit == i) = true
    · simp [ha, hg]
    · simp [ha, hg]

lemma findHabit_bump (now : DateTime) (i : Int) (s : DBState) :
    findHabit (bump_streak now i s) i
      = (findHabit s i).map (fun h => { h with streak := h.streak + 1, updated_at := now }) :=
  find?_update_self s.habits i _ (fun _ => rfl)

lemma findHabit_reset (now : DateTime) (i : Int) (s : DBState) :
    findHabit (reset_streak now i s) i
      = (findHabit s i).map (fun h => { h with streak := 0, updated_at := now }) :=
  find?_update_self s.habits i _ (fun _ => rfl)

lemma dget_syncRow_id (tasks : List TaskRow) (h : HabitRow) :
    dget (syncRow tasks h) kIdHabit = some (.vInt h.id_habit) := rfl

lemma dget_syncRow_name (tasks : List TaskRow) (h : HabitRow) :
    dget (syncRow tasks h) kName = some (.vStr h.name) := rfl

lemma dget_syncRow_curstreak (tasks : List TaskRow) (h : HabitRow) :
    dget (syncRow tasks h) kCurrentStreak = none := rfl

lemma dget_syncRow_comp (tasks : List TaskRow) (h : HabitRow) :
    dget (syncRow tasks h) kCompletedCount
      = some (.vInt (completedCount tasks h.id_habit : Int)) := rfl

lemma dget_syncRow_unc (tasks : List TaskRow) (h : HabitRow) :
    dget (syncRow tasks h) kUncompletedCount
      = some (.vInt (uncompletedCount tasks h.id_habit : Int)) := rfl

lemma findHabit_grInsertReport (now : DateTime) (d : DictRow) (tl : List TaskRow)
    (s : DBState) (j : Int) : findHabit (grInsertReport now d tl s) j = findHabit s j := rfl

lemma findHabit_cleanup (i : Int) (s : DBState) (j : Int) :
    findHabit (cleanup_tasks i s) j = findHabit s j := rfl

lemma count_partition (tasks : List TaskRow) (i : Int) :
    completedCount tasks i + uncompletedCount tasks i = (tasksOf tasks i).length := by
  induction tasks with
  | nil => rfl
  | cons t ts ih =>
    simp only [completedCount, uncompletedCount, tasksOf, List.filter_cons] at ih ⊢
    by_cases hid : (t.id_habit == i) = true
    · cases hc : t.completed <;> simp [hid, hc] <;> omega
    · cases hc : t.completed <;> simp [hid, hc] <;> omega

lemma uncompleted_of_no_tasks (tasks : List TaskRow) (i : Int)
    (ht : tasksOf tasks i = []) : uncompletedCount tasks i = 0 := by
  have h1 := List.filter_eq_nil_iff.mp ht
  unfold uncompletedCount
  rw [List.length_eq_zero, List.filter_eq_nil_iff]
  intro t htm
  have := h1 t htm
  simp only [Bool.not_eq_true] at this
  simp [this]

lemma select_tasks_eq_tasksOf (s : DBState) (i : Int)
    (hex : s.habits.any (fun h => h.id_habit == i) = true) :
    select_tasks s (some (.vInt i)) = tasksOf s.tasks i := by
  unfold select_tasks tasksOf
  apply List.filter_congr
  intro t _
  by_cases ht : (t.id_habit == i) = true
  · have heq : t.id_habit = i := by simpa using ht
    simp [ht, heq, hex]
  · simp only [Bool.not_eq_true] at ht
    simp [ht]

lemma hasHabit_of_findHabit {s : DBState} {i : Int} {h : HabitRow}
    (hfind : findHabit s i = some h) :
    s.habits.any (fun x => x.id_habit == i) = true := by
  have hmem := List.mem_of_find?_eq_some hfind
  have hp := List.find?_some hfind
  exact List.any_eq_true.mpr ⟨h, hmem, hp⟩

lemma tasksOf_cleanup (i : Int) (s : DBState) :
    tasksOf (cleanup_tasks i s).tasks i = [] := by
  unfold cleanup_tasks tasksOf
  rw [List.filter_eq_nil_iff]
  intro t htm
  have := (List.mem_filter.mp htm).2
  simp only [bne_iff_ne, ne_eq] at this
  simp [this]

/-- C2. A finish cycle run for a habit (its `sync_states` row and current
batch handed to `DB.generate_report`) leaves the habit with streak `old + 1`
when the batch had zero uncompleted tasks and streak `0` otherwise, and its
`updated_at` refreshed to now; a habit whose batch is empty falls in the
zero-uncompleted case. -/
theorem generate_report_updates_streak (now : DateTime) (s : DBState) (h : HabitRow)
    (hfind : findHabit s h.id_habit = some h) :
    findHabit (generate_report now (syncRow s.tasks h)
        (select_tasks s (dget (syncRow s.tasks h) kIdHabit)) s) h.id_habit
      = some { h with
          streak := if uncompletedCount s.tasks h.id_habit = 0 then h.streak + 1 else 0,
          updated_at := now }
      ∧ (tasksOf s.tasks h.id_habit = [] → uncompletedCount s.tasks h.id_habit = 0) := by
  refine ⟨?_, fun ht => uncompleted_of_no_tasks _ _ ht⟩
  unfold generate_report
  rw [dget_syncRow_id, dget_syncRow_unc]
  by_cases hu : uncompletedCount s.tasks h.id_habit = 0
  · rw [if_pos (by simp [pyEqZero, hu])]
    simp only [updStreakOpt, cleanupTasksOpt]
    rw [findHabit_bump, findHabit_cleanup, findHabit_grInsertReport, hfind]
    simp [hu]
  · rw [if_neg (by simp [pyEqZero, hu])]
    simp only [updStreakOpt, cleanupTasksOpt]
    rw [findHabit_reset, findHabit_cleanup, findHabit_grInsertReport, hfind]
    simp [hu]

theorem generate_report_updates_streak_witness :
    findHabit w2State w2Habit.id_habit = some w2Habit
      ∧ (findHabit (generate_report w2Date (syncRow w2State.tasks w2Habit)
          (select_tasks w2State (dget (syncRow w2State.tasks w2Habit) kIdHabit))
          w2State) w2Habit.id_habit
        = some { w2Habit with
            streak := if uncompletedCount w2State.tasks w2Habit.id_habit = 0 then
              w2Habit.streak + 1 else 0,
            updated_at := w2Date }
        ∧ (tasksOf w2State.tasks w2Habit.id_habit = []
            → uncompletedCount w2State.tasks w2Habit.id_habit = 0)) :=
  ⟨by decide, generate_report_updates_streak w2Date w2State w2Habit (by decide)⟩

lemma reports_cleanupTasksOpt (v : Option PyVal) (s : DBState) :
    (cleanupTasksOpt v s).reports = s.reports := by
  cases v with
  | none => rfl
  | some p => cases p <;> rfl

lemma reports_updStreakOpt (f : Int → DBState → DBState)
    (hf : ∀ i s, (f i s).reports = s.reports) (v : Option PyVal) (s : DBState) :
    (updStreakOpt f v s).reports = s.reports := by
  cases v with
  | none => rfl
  | some p => cases p with
    | vInt n => exact hf n s
    | vStr _ => rfl

lemma tasks_updStreakOpt (f : Int → DBState → DBState)
    (hf : ∀ i s, (f i s).tasks = s.tasks) (v : Option PyVal) (s : DBState) :
    (updStreakOpt f v s).tasks = s.tasks := by
  cases v with
  | none => rfl
  | some p => cases p with
    | vInt n => exact hf n s
    | vStr _ => rfl

lemma generate_report_reports (now : DateTime) (d : DictRow) (tl : List TaskRow)
    (s : DBState) :
    (generate_report now d tl s).reports
      = s.reports ++ [⟨s.nextReportId, dget d kIdHabit, dget d kName, dget d kCurrentStreak,
          dget d kCompletedCount, dget d kUncompletedCount, now, tl⟩] := by
  unfold generate_report
  by_cases hb : pyEqZero (dget d kUncompletedCount) = true
  · rw [if_pos hb, reports_updStreakOpt (bump_streak now) (fun _ _ => rfl),
      reports_cleanupTasksOpt]
    rfl
  · rw [if_neg hb, reports_updStreakOpt (reset_streak now) (fun _ _ => rfl),
      reports_cleanupTasksOpt]
    rfl

lemma tasksOf_generate_report (now : DateTime) (s : DBState) (h : HabitRow)
    (tl : List TaskRow) :
    tasksOf (generate_report now (syncRow s.tasks h) tl s).tasks h.id_habit = [] := by
  unfold generate_report
  rw [dget_syncRow_id]
  by_cases hb : pyEqZero (dget (syncRow s.tasks h) kUncompletedCount) = true
  · rw [if_pos hb, tasks_updStreakOpt (bump_streak now) (fun _ _ => rfl)]
    exact tasksOf_cleanup h.id_habit _
  · rw [if_neg hb, tasks_updStreakOpt (reset_streak now) (fun _ _ => rfl)]
    exact tasksOf_cleanup h.id_habit _

/-- C5. The report a finish cycle inserts carries the completed and
uncompleted counts of the archived batch (so their sum is the batch size),
the serialized batch itself, and the habit id and name; and immediately
afterwards the habit owns zero tasks. -/
theorem generate_report_counts_and_empties (now : DateTime) (s : DBState) (h : HabitRow)
    (hfind : findHabit s h.id_habit = some h) :
    (generate_report now (syncRow s.tasks h)
        (select_tasks s (dget (syncRow s.tasks h) kIdHabit)) s).reports
      = s.reports ++ [⟨s.nextReportId, some (.vInt h.id_habit), some (.vStr h.name), none,
          some (.vInt (completedCount s.tasks h.id_habit : Int)),
          some (.vInt (uncompletedCount s.tasks h.id_habit : Int)), now,
          tasksOf s.tasks h.id_habit⟩]
      ∧ completedCount s.tasks h.id_habit + uncompletedCount s.tasks h.id_habit
        = (tasksOf s.tasks h.id_habit).length
      ∧ tasksOf (generate_report now (syncRow s.tasks h)
          (select_tasks s (dget (syncRow s.tasks h) kIdHabit)) s).tasks h.id_habit = [] := by
  refine ⟨?_, count_partition _ _, tasksOf_generate_report now s h _⟩
  rw [dget_syncRow_id, select_tasks_eq_tasksOf s h.id_habit (hasHabit_of_findHabit hfind),
    generate_report_reports, dget_syncRow_id, dget_syncRow_name, dget_syncRow_curstreak,
    dget_syncRow_comp, dget_syncRow_unc]

theorem generate_report_counts_and_empties_witness :
    findHabit w5State w5Habit.id_habit = some w5Habit
      ∧ ((generate_report w5Date (syncRow w5State.tasks w5Habit)
          (select_tasks w5State (dget (syncRow w5State.tasks w5Habit) kIdHabit))
          w5State).reports
        = w5State.reports ++ [⟨w5State.nextReportId, some (.vInt w5Habit.id_habit),
            some (.vStr w5Habit.name), none,
            some (.vInt (completedCount w5State.tasks w5Habit.id_habit : Int)),
            some (.vInt (uncompletedCount w5State.tasks w5Habit.id_habit : Int)), w5Date,
            tasksOf w5State.tasks w5Habit.id_habit⟩]
        ∧ completedCount w5State.tasks w5Habit.id_habit
            + uncompletedCount w5State.tasks w5Habit.id_habit
          = (tasksOf w5State.tasks w5Habit.id_habit).length
        ∧ tasksOf (generate_report w5Date (syncRow w5State.tasks w5Habit)
            (select_tasks w5State (dget (syncRow w5State.tasks w5Habit) kIdHabit))
            w5State).tasks w5Habit.id_habit = []) :=
  ⟨by decide, generate_report_counts_and_empties w5Date w5State w5Habit (by decide)⟩

/-! ## Lemmas about task creation and refill -/

lemma any_map_pres {α : Type _} (l : List α) (p : α → Bool) (f : α → α)
    (hf : ∀ a, p (f a) = p a) : (l.map f).any p = l.any p := by
  rw [List.any_map]
  have : p ∘ f = p := funext hf
  rw [this]

lemma touchHabits_any (now : DateTime) (i j : Int) (hs : List HabitRow) :
    (touchHabits now i hs).any (fun h => h.id_habit == j)
      = hs.any (fun h => h.id_habit == j) :=
  any_map_pres _ _ _ (fun a => by
    by_cases ha : (a.id_habit == i) = true <;> simp [touchHabits, ha])

lemma create_task_any (now : DateTime) (i : Int) (d : String) (s : DBState) (j : Int) :
    (create_task now i d s).habits.any (fun h => h.id_habit == j)
      = s.habits.any (fun h => h.id_habit == j) := by
  unfold create_task
  by_cases hex : s.habits.any (fun h => h.id_habit == i) = true
  · rw [if_pos hex]
    exact touchHabits_any now i j s.habits
  · rw [if_neg hex]

lemma create_task_tasks_ext (now : DateTime) (i : Int) (d : String) (s : DBState) :
    ∃ ext : List TaskRow, (create_task now i d s).tasks = s.tasks ++ ext
      ∧ ∀ t ∈ ext, t.id_habit = i := by
  unfold create_task
  by_cases hex : s.habits.any (fun h => h.id_habit == i) = true
  · rw [if_pos hex]
    exact ⟨[⟨s.nextTaskId, i, d, false, now, now⟩], rfl, by simp⟩
  · rw [if_neg hex]
    exact ⟨[], by simp, by simp⟩

lemma create_task_tasksOf_self (now : DateTime) (i : Int) (d : String) (s : DBState)
    (hex : s.habits.any (fun h => h.id_habit == i) = true) :
    tasksOf (create_task now i d s).tasks i
      = tasksOf s.tasks i ++ [⟨s.nextTaskId, i, d, false, now, now⟩] := by
  unfold create_task tasksOf
  rw [if_pos hex, List.filter_append]
  simp

lemma create_task_tasksOf_ne (now : DateTime) (i : Int) (d : String) (s : DBState)
    (j : Int) (hij : j ≠ i) :
    tasksOf (create_task now i d s).tasks j = tasksOf s.tasks j := by
  obtain ⟨ext, he, hid⟩ := create_task_tasks_ext now i d s
  unfold tasksOf
  rw [he, List.filter_append]
  have hnil : ext.filter (fun t => t.id_habit == j) = [] := by
    rw [List.filter_eq_nil_iff]
    intro t ht
    have := hid t ht
    simp only [this, beq_iff_eq]
    exact fun hh => hij hh.symm
  rw [hnil, List.append_nil]

lemma create_task_findHabit_ne (now : DateTime) (i : Int) (d : String) (s : DBState)
    (j : Int) (hij : j ≠ i) :
    findHabit (create_task now i d s) j = findHabit s j := by
  unfold create_task
  by_cases hex : s.habits.any (fun h => h.id_habit == i) = true
  · rw [if_pos hex]
    unfold findHabit touchHabits
    rw [find?_map_pres _ _ _ (fun a => by
      by_cases ha : (a.id_habit == i) = true <;> simp [ha])]
    cases hf : s.habits.find? (fun h => h.id_habit == j) with
    | none => rfl
    | some h =>
      have hp : h.id_habit = j := by simpa using List.find?_some hf
      have hne : ¬ ((h.id_habit == i) = true) := by
        simp only [hp, beq_iff_eq]
        exact hij
      simp only [Option.map_some']
      rw [if_neg hne]
  · rw [if_neg hex]

lemma create_task_findHabit_self (now : DateTime) (i : Int) (d : String) (s : DBState)
    (hex : s.habits.any (fun h => h.id_habit == i) = true) :
    findHabit (create_task now i d s) i
      = (findHabit s i).map (fun x => { x with updated_at := now }) := by
  unfold create_task
  rw [if_pos hex]
  unfold findHabit touchHabits
  exact find?_update_self s.habits i _ (fun _ => rfl)

lemma ctFold_any (now : DateTime) (i : Int) (tpl : List String) :
    ∀ (s : DBState) (j : Int),
      ((tpl.foldl (fun st d => create_task now i d st) s).habits.any
          (fun h => h.id_habit == j))
        = s.habits.any (fun h => h.id_habit == j) := by
  induction tpl with
  | nil => intro s j; rfl
  | cons d rest ih =>
    intro s j
    calc ((rest.foldl (fun st d => create_task now i d st)
            (create_task now i d s)).habits.any (fun h => h.id_habit == j))
        = (create_task now i d s).habits.any (fun h => h.id_habit == j) := ih _ j
      _ = s.habits.any (fun h => h.id_habit == j) := create_task_any now i d s j

lemma ctFold_tasksOf_ne (now : DateTime) (i : Int) (tpl : List String) :
    ∀ (s : DBState) (j : Int), j ≠ i →
      tasksOf ((tpl.foldl (fun st d => create_task now i d st) s)).tasks j
        = tasksOf s.tasks j := by
  induction tpl with
  | nil => intro s j _; rfl
  | cons d rest ih =>
    intro s j hij
    rw [show (d :: rest).foldl (fun st d => create_task now i d st) s
        = rest.foldl (fun st d => create_task now i d st) (create_task now i d s) from rfl,
      ih _ j hij, create_task_tasksOf_ne now i d s j hij]

lemma ctFold_findHabit_ne (now : DateTime) (i : Int) (tpl : List String) :
    ∀ (s : DBState) (j : Int), j ≠ i →
      findHabit (tpl.foldl (fun st d => create_task now i d st) s) j = findHabit s j := by
  induction tpl with
  | nil => intro s j _; rfl
  | cons d rest ih =>
    intro s j hij
    rw [show (d :: rest).foldl (fun st d => create_task now i d st) s
        = rest.foldl (fun st d => create_task now i d st) (create_task now i d s) from rfl,
      ih _ j hij, create_task_findHabit_ne now i d s j hij]

lemma ctFold_tasksOf_self (now : DateTime) (i : Int) (tpl : List String) :
    ∀ s : DBState, s.habits.any (fun h => h.id_habit == i) = true →
      ∃ ext : List TaskRow,
        tasksOf ((tpl.foldl (fun st d => create_task now i d st) s)).tasks i
            = tasksOf s.tasks i ++ ext
          ∧ ext.map (fun t => t.task) = tpl
          ∧ ∀ t ∈ ext, t.completed = false := by
  induction tpl with
  | nil => exact fun s _ => ⟨[], by simp, rfl, by simp⟩
  | cons d rest ih =>
    intro s hex
    obtain ⟨ext, he, hmap, hcomp⟩ := ih (create_task now i d s) (by
      rw [create_task_any now i d s i]; exact hex)
    refine ⟨⟨s.nextTaskId, i, d, false, now, now⟩ :: ext, ?_, by simp [hmap], ?_⟩
    · rw [show (d :: rest).foldl (fun st d => create_task now i d st) s
          = rest.foldl (fun st d => create_task now i d st) (create_task now i d s) from rfl,
        he, create_task_tasksOf_self now i d s hex]
      simp
    · intro t ht
      rcases List.mem_cons.mp ht with rfl | hm
      · rfl
      · exact hcomp t hm

lemma ctFold_findHabit_self (now : DateTime) (i : Int) (tpl : List String) :
    ∀ s : DBState, s.habits.any (fun h => h.id_habit == i) = true → tpl ≠ [] →
      findHabit (tpl.foldl (fun st d => create_task now i d st) s) i
        = (findHabit s i).map (fun x => { x with updated_at := now }) := by
  induction tpl with
  | nil => exact fun s _ ht => absurd rfl ht
  | cons d rest ih =>
    intro s hex _
    cases rest with
    | nil => exact create_task_findHabit_self now i d s hex
    | cons e rest2 =>
      rw [show (d :: e :: rest2).foldl (fun st d => create_task now i d st) s
          = (e :: rest2).foldl (fun st d => create_task now i d st)
            (create_task now i d s) from rfl,
        ih (create_task now i d s) (by rw [create_task_any now i d s i]; exact hex)
          (by simp),
        create_task_findHabit_self now i d s hex, Option.map_map]
      rfl

lemma find?_self_of_nodup (hs : List HabitRow)
    (hnd : (hs.map (fun h => h.id_habit)).Nodup) (h : HabitRow) (hmem : h ∈ hs) :
    hs.find? (fun x => x.id_habit == h.id_habit) = some h := by
  induction hs with
  | nil => cases hmem
  | cons a rest ih =>
    have hnd2 := hnd
    rw [List.map_cons, List.nodup_cons] at hnd2
    rcases List.mem_cons.mp hmem with rfl | hm
    · rw [List.find?_cons_of_pos _ (by simp)]
    · have hne : ¬ ((a.id_habit == h.id_habit) = true) := by
        simp only [beq_iff_eq]
        intro he
        exact hnd2.1 (he ▸ List.mem_map_of_mem _ hm)
      have hstep : List.find? (fun x => x.id_habit == h.id_habit) (a :: rest)
          = List.find? (fun x => x.id_habit == h.id_habit) rest :=
        List.find?_cons_of_neg rest hne
      rw [hstep]
      exact ih hnd2.2 hm

lemma refillFold_frame (now : DateTime) (l : List HabitRow) :
    ∀ (s : DBState) (j : Int), (∀ h' ∈ l, h'.id_habit ≠ j) →
      tasksOf ((l.foldl (fun st h => create_task_from_habit now h st) s)).tasks j
          = tasksOf s.tasks j
        ∧ findHabit (l.foldl (fun st h => create_task_from_habit now h st) s) j
          = findHabit s j := by
  induction l with
  | nil => exact fun s j _ => ⟨rfl, rfl⟩
  | cons a rest ih =>
    intro s j hne
    obtain ⟨ht, hf⟩ := ih (create_task_from_habit now a s) j
      (fun h' hm => hne h' (List.mem_cons_of_mem _ hm))
    have hja : j ≠ a.id_habit := (hne a (List.mem_cons_self _ _)).symm
    rw [List.foldl_cons]
    exact ⟨by rw [ht]; exact ctFold_tasksOf_ne now a.id_habit a.template s j hja,
      by rw [hf]; exact ctFold_findHabit_ne now a.id_habit a.template s j hja⟩

lemma refillFold_batch (now : DateTime) (l : List HabitRow) :
    ∀ s : DBState,
      (∀ h' ∈ l, s.habits.any (fun x => x.id_habit == h'.id_habit) = true) →
      (l.map (fun h => h.id_habit)).Nodup →
      ∀ h ∈ l,
        (∃ ext : List TaskRow,
          tasksOf ((l.foldl (fun st h => create_task_from_habit now h st) s)).tasks h.id_habit
              = tasksOf s.tasks h.id_habit ++ ext
            ∧ ext.map (fun t => t.task) = h.template
            ∧ ∀ t ∈ ext, t.completed = false)
        ∧ (h.template ≠ [] →
            findHabit (l.foldl (fun st h => create_task_from_habit now h st) s) h.id_habit
              = (findHabit s h.id_habit).map (fun x => { x with updated_at := now })) := by
  induction l with
  | nil => intro s _ _ h hm; cases hm
  | cons a rest ih =>
    intro s hhas hnd h hmem
    have hnd2 := hnd
    rw [List.map_cons, List.nodup_cons] at hnd2
    have hhas1 : ∀ h' ∈ rest,
        (create_task_from_habit now a s).habits.any
          (fun x => x.id_habit == h'.id_habit) = true := by
      intro h' hm
      have hc : ((a.template.foldl (fun st d => create_task now a.id_habit d st) s).habits.any
          (fun x => x.id_habit == h'.id_habit)) = s.habits.any (fun x => x.id_habit == h'.id_habit) :=
        ctFold_any now a.id_habit a.template s h'.id_habit
      rw [show create_task_from_habit now a s
          = a.template.foldl (fun st d => create_task now a.id_habit d st) s from rfl, hc]
      exact hhas h' (List.mem_cons_of_mem _ hm)
    rcases List.mem_cons.mp hmem with rfl | hm
    · have hfr := refillFold_frame now rest (create_task_from_habit now h s) h.id_habit
        (fun h' hm' he => hnd2.1 (he ▸ List.mem_map_of_mem _ hm'))
      have hex := hhas h (List.mem_cons_self _ _)
      constructor
      · obtain ⟨ext, he, hmap, hcomp⟩ := ctFold_tasksOf_self now h.id_habit h.template s hex
        refine ⟨ext, ?_, hmap, hcomp⟩
        rw [List.foldl_cons, hfr.1]
        exact he
      · intro htpl
        rw [List.foldl_cons, hfr.2]
        exact ctFold_findHabit_self now h.id_habit h.template s hex htpl
    · have hres := ih (create_task_from_habit now a s) hhas1 hnd2.2 h hm
      have hne : h.id_habit ≠ a.id_habit := by
        intro he
        exact hnd2.1 (he ▸ List.mem_map_of_mem _ hm)
      constructor
      · obtain ⟨ext, he, hmap, hcomp⟩ := hres.1
        refine ⟨ext, ?_, hmap, hcomp⟩
        rw [List.foldl_cons, he]
        rw [show tasksOf (create_task_from_habit now a s).tasks h.id_habit
            = tasksOf s.tasks h.id_habit from
          ctFold_tasksOf_ne now a.id_habit a.template s h.id_habit hne]
      · intro htpl
        rw [List.foldl_cons, hres.2 htpl]
        rw [show findHabit (create_task_from_habit now a s) h.id_habit
            = findHabit s h.id_habit from
          ctFold_findHabit_ne now a.id_habit a.template s h.id_habit hne]

/-- C3. Step B selects exactly the habits currently owning zero tasks, and
for each selected habit creates one task per template entry, in template
order and with the descriptions copied verbatim (all uncompleted), then
touches the habit's `updated_at` (the touch happens through the per-task
creation, so it requires the template to be non-empty — the spec's §6 input
validation guarantees templates are non-empty). -/
theorem stepB_refills_zero_task_habits (now : DateTime) (s : DBState)
    (hnd : (s.habits.map (fun h => h.id_habit)).Nodup) :
    (∀ h ∈ s.habits, (h ∈ select_habits_to_fulfill s ↔ tasksOf s.tasks h.id_habit = []))
      ∧ ∀ h ∈ select_habits_to_fulfill s,
        (tasksOf (stepB now s).tasks h.id_habit).map (fun t => t.task) = h.template
          ∧ (∀ t ∈ tasksOf (stepB now s).tasks h.id_habit, t.completed = false)
          ∧ (h.template ≠ [] →
              findHabit (stepB now s) h.id_habit = some { h with updated_at := now }) := by
  constructor
  · intro h hm
    unfold select_habits_to_fulfill
    simp [List.mem_filter, hm, List.length_eq_zero]
  · intro h hm
    have hmem : h ∈ s.habits := List.mem_of_mem_filter hm
    have hzero : tasksOf s.tasks h.id_habit = [] := by
      have := (List.mem_filter.mp hm).2
      simpa [List.length_eq_zero] using this
    have hhas : ∀ h' ∈ select_habits_to_fulfill s,
        s.habits.any (fun x => x.id_habit == h'.id_habit) = true :=
      fun h' hm' => List.any_eq_true.mpr ⟨h', List.mem_of_mem_filter hm', by simp⟩
    have hnds : ((select_habits_to_fulfill s).map (fun h => h.id_habit)).Nodup :=
      List.Nodup.sublist (List.Sublist.map _ (List.filter_sublist _)) hnd
    obtain ⟨⟨ext, he, hmap, hcomp⟩, hupd⟩ :=
      refillFold_batch now (select_habits_to_fulfill s) s hhas hnds h hm
    have htasks : tasksOf (stepB now s).tasks h.id_habit = ext := by
      rw [show stepB now s
          = (select_habits_to_fulfill s).foldl
            (fun st h => create_task_from_habit now h st) s from rfl, he, hzero,
        List.nil_append]
    refine ⟨by rw [htasks]; exact hmap, by rw [htasks]; exact hcomp, fun htpl => ?_⟩
    have hfind := hupd htpl
    rw [show findHabit s h.id_habit = some h from find?_self_of_nodup s.habits hnd h hmem]
      at hfind
    rw [show stepB now s
        = (select_habits_to_fulfill s).foldl
          (fun st h => create_task_from_habit now h st) s from rfl, hfind]
    rfl

theorem stepB_refills_zero_task_habits_witness :
    (w3State.habits.map (fun h => h.id_habit)).Nodup
      ∧ ((∀ h ∈ w3State.habits,
          (h ∈ select_habits_to_fulfill w3State ↔ tasksOf w3State.tasks h.id_habit = []))
        ∧ ∀ h ∈ select_habits_to_fulfill w3State,
          (tasksOf (stepB w3Date w3State).tasks h.id_habit).map (fun t => t.task) = h.template
            ∧ (∀ t ∈ tasksOf (stepB w3Date w3State).tasks h.id_habit, t.completed = false)
            ∧ (h.template ≠ [] →
                findHabit (stepB w3Date w3State) h.id_habit
                  = some { h with updated_at := w3Date })) :=
  ⟨by decide, stepB_refills_zero_task_habits w3Date w3State (by decide)⟩

lemma touchHabits_habits_map {α : Type _} (now : DateTime) (i : Int)
    (hs : List HabitRow) (f : HabitRow → α)
    (hf : ∀ x, f { x with updated_at := now } = f x) :
    (touchHabits now i hs).map f = hs.map f := by
  unfold touchHabits
  rw [List.map_map]
  congr 1
  funext a
  by_cases ha : (a.id_habit == i) = true <;> simp [Function.comp, ha, hf]

lemma create_task_habits_map {α : Type _} (now : DateTime) (i : Int) (d : String)
    (s : DBState) (f : HabitRow → α)
    (hf : ∀ x, f { x with updated_at := now } = f x) :
    (create_task now i d s).habits.map f = s.habits.map f := by
  unfold create_task
  by_cases hex : s.habits.any (fun h => h.id_habit == i) = true
  · rw [if_pos hex]
    exact touchHabits_habits_map now i s.habits f hf
  · rw [if_neg hex]

lemma ctFold_habits_map {α : Type _} (now : DateTime) (i : Int) (tpl : List String)
    (f : HabitRow → α) (hf : ∀ x, f { x with updated_at := now } = f x) :
    ∀ s : DBState,
      ((tpl.foldl (fun st d => create_task now i d st) s).habits).map f
        = s.habits.map f := by
  induction tpl with
  | nil => intro s; rfl
  | cons d rest ih =>
    intro s
    rw [List.foldl_cons, ih (create_task now i d s),
      create_task_habits_map now i d s f hf]

lemma refillFold_habits_map {α : Type _} (now : DateTime) (l : List HabitRow)
    (f : HabitRow → α) (hf : ∀ x, f { x with updated_at := now } = f x) :
    ∀ s : DBState,
      ((l.foldl (fun st h => create_task_from_habit now h st) s).habits).map f
        = s.habits.map f := by
  induction l with
  | nil => intro s; rfl
  | cons a rest ih =>
    intro s
    rw [List.foldl_cons, ih (create_task_from_habit now a s)]
    exact ctFold_habits_map now a.id_habit a.template f hf s

lemma ctFold_tasks_ext (now : DateTime) (i : Int) (tpl : List String) :
    ∀ s : DBState, ∃ ext : List TaskRow,
      (tpl.foldl (fun st d => create_task now i d st) s).tasks = s.tasks ++ ext := by
  induction tpl with
  | nil => exact fun s => ⟨[], by simp⟩
  | cons d rest ih =>
    intro s
    obtain ⟨e1, he1, _⟩ := create_task_tasks_ext now i d s
    obtain ⟨e2, he2⟩ := ih (create_task now i d s)
    exact ⟨e1 ++ e2, by rw [List.foldl_cons, he2, he1, List.append_assoc]⟩

lemma refillFold_tasks_ext (now : DateTime) (l : List HabitRow) :
    ∀ s : DBState, ∃ ext : List TaskRow,
      (l.foldl (fun st h => create_task_from_habit now h st) s).tasks = s.tasks ++ ext := by
  induction l with
  | nil => exact fun s => ⟨[], by simp⟩
  | cons a rest ih =>
    intro s
    obtain ⟨e1, he1⟩ := ctFold_tasks_ext now a.id_habit a.template s
    obtain ⟨e2, he2⟩ := ih (create_task_from_habit now a s)
    exact ⟨e1 ++ e2, by rw [List.foldl_cons, he2, show
      (create_task_from_habit now a s).tasks = s.tasks ++ e1 from he1,
      List.append_assoc]⟩

lemma foldl_refill_id (now : DateTime) (l : List HabitRow)
    (hl : ∀ h ∈ l, h.template = []) :
    ∀ s : DBState, l.foldl (fun st h => create_task_from_habit now h st) s = s := by
  induction l with
  | nil => intro s; rfl
  | cons a rest ih =>
    intro s
    have ha : create_task_from_habit now a s = s := by
      unfold create_task_from_habit
      rw [hl a (List.mem_cons_self _ _)]
      rfl
    rw [List.foldl_cons, ha]
    exact ih (fun h hm => hl h (List.mem_cons_of_mem _ hm)) s

lemma sel_after_stepB_template_empty (now : DateTime) (s : DBState)
    (hnd : (s.habits.map (fun h => h.id_habit)).Nodup) :
    ∀ h ∈ select_habits_to_fulfill (stepB now s), h.template = [] := by
  intro h hm
  have hmem1 : h ∈ (stepB now s).habits := List.mem_of_mem_filter hm
  have hzero1 : tasksOf (stepB now s).tasks h.id_habit = [] := by
    simpa [List.length_eq_zero] using (List.mem_filter.mp hm).2
  have hproj : ((stepB now s).habits.map projTemplate) = s.habits.map projTemplate :=
    refillFold_habits_map now (select_habits_to_fulfill s) projTemplate (fun _ => rfl) s
  have hin : projTemplate h ∈ s.habits.map projTemplate := by
    rw [← hproj]
    exact List.mem_map_of_mem _ hmem1
  obtain ⟨h0, hm0, heq⟩ := List.mem_map.mp hin
  have hid : h0.id_habit = h.id_habit := congrArg Prod.fst heq
  have htpl : h0.template = h.template := congrArg Prod.snd heq
  by_cases hz : tasksOf s.tasks h.id_habit = []
  · have hm1 : h0 ∈ select_habits_to_fulfill s := by
      unfold select_habits_to_fulfill
      rw [List.mem_filter]
      exact ⟨hm0, by simp [hid, hz]⟩
    have hhas : ∀ h' ∈ select_habits_to_fulfill s,
        s.habits.any (fun x => x.id_habit == h'.id_habit) = true :=
      fun h' hm' => List.any_eq_true.mpr ⟨h', List.mem_of_mem_filter hm', by simp⟩
    have hnds : ((select_habits_to_fulfill s).map (fun h => h.id_habit)).Nodup :=
      List.Nodup.sublist (List.Sublist.map _ (List.filter_sublist _)) hnd
    obtain ⟨⟨ext, he, hmap, _⟩, _⟩ :=
      refillFold_batch now (select_habits_to_fulfill s) s hhas hnds h0 hm1
    rw [hid] at he
    rw [show stepB now s = (select_habits_to_fulfill s).foldl
        (fun st h => create_task_from_habit now h st) s from rfl] at hzero1
    rw [hzero1, hz] at he
    have hext : ext = [] := by simpa using he.symm
    rw [← htpl, ← hmap, hext]
    rfl
  · exfalso
    obtain ⟨ext2, hext2⟩ := refillFold_tasks_ext now (select_habits_to_fulfill s) s
    have hsplit : tasksOf (stepB now s).tasks h.id_habit
        = tasksOf s.tasks h.id_habit ++ ext2.filter (fun t => t.id_habit == h.id_habit) := by
      rw [show (stepB now s).tasks = s.tasks ++ ext2 from hext2]
      unfold tasksOf
      rw [List.filter_append]
    rw [hzero1] at hsplit
    exact hz (List.append_eq_nil.mp hsplit.symm).1

/-- C9. Refill is idempotent: running Step B twice in a row (with no
intervening task completion or deletion) leaves the state of the first run
unchanged — in particular no duplicate tasks are created — and every habit
owning more than zero tasks is not selected by the second run. -/
theorem stepB_idempotent (now now2 : DateTime) (s : DBState)
    (hnd : (s.habits.map (fun h => h.id_habit)).Nodup) :
    stepB now2 (stepB now s) = stepB now s
      ∧ ∀ h ∈ (stepB now s).habits,
          tasksOf (stepB now s).tasks h.id_habit ≠ [] →
            h ∉ select_habits_to_fulfill (stepB now s) := by
  constructor
  · exact foldl_refill_id now2 _ (sel_after_stepB_template_empty now s hnd) _
  · intro h _ hne hmem
    exact hne (by simpa [List.length_eq_zero] using (List.mem_filter.mp hmem).2)

theorem stepB_idempotent_witness :
    (w9State.habits.map (fun h => h.id_habit)).Nodup
      ∧ (stepB w9DateB (stepB w9Date w9State) = stepB w9Date w9State
        ∧ ∀ h ∈ (stepB w9Date w9State).habits,
            tasksOf (stepB w9Date w9State).tasks h.id_habit ≠ [] →
              h ∉ select_habits_to_fulfill (stepB w9Date w9State)) :=
  ⟨by decide, stepB_idempotent w9Date w9DateB w9State (by decide)⟩

/-! ## Streak invariant lemmas -/

lemma inv_map_cond (hs : List HabitRow) (i : Int) (g : HabitRow → HabitRow)
    (hinv : ∀ h ∈ hs, 0 ≤ h.streak) (hg : ∀ h, 0 ≤ h.streak → 0 ≤ (g h).streak) :
    ∀ h ∈ hs.map (fun h => if h.id_habit == i then g h else h), 0 ≤ h.streak := by
  intro h hm
  obtain ⟨a, ha, rfl⟩ := List.mem_map.mp hm
  by_cases hc : (a.id_habit == i) = true
  · rw [if_pos hc]
    exact hg a (hinv a ha)
  · rw [if_neg hc]
    exact hinv a ha

lemma streakInv_create_task (now : DateTime) (i : Int) (d : String) (s : DBState)
    (hinv : StreakInv s) : StreakInv (create_task now i d s) := by
  unfold create_task
  by_cases hex : s.habits.any (fun h => h.id_habit == i) = true
  · rw [if_pos hex]
    exact inv_map_cond s.habits i _ hinv (fun h hh => hh)
  · rw [if_neg hex]
    exact hinv

lemma streakInv_update_completed (now : DateTime) (i : Int) (s : DBState)
    (hinv : StreakInv s) : StreakInv (update_completed now i s) :=
  hinv

lemma streakInv_generate_report (now : DateTime) (d : DictRow) (tl : List TaskRow)
    (s : DBState) (hinv : StreakInv s) : StreakInv (generate_report now d tl s) := by
  have hbase : StreakInv (cleanupTasksOpt (dget d kIdHabit)
      (grInsertReport now d tl s)) := by
    cases hv : dget d kIdHabit with
    | none => exact hinv
    | some p => cases p with
      | vInt n => exact hinv
      | vStr _ => exact hinv
  unfold generate_report
  by_cases hb : pyEqZero (dget d kUncompletedCount) = true
  · rw [if_pos hb]
    cases hv : dget d kIdHabit with
    | none => simpa [updStreakOpt, hv] using hbase
    | some p => cases p with
      | vInt n =>
        simp only [updStreakOpt, hv]
        rw [hv] at hbase
        exact inv_map_cond _ n _ hbase (fun h hh => by
          show (0 : Int) ≤ h.streak + 1
          omega)
      | vStr a => simpa [updStreakOpt, hv] using hbase
  · rw [if_neg hb]
    cases hv : dget d kIdHabit with
    | none => simpa [updStreakOpt, hv] using hbase
    | some p => cases p with
      | vInt n =>
        simp only [updStreakOpt, hv]
        rw [hv] at hbase
        exact inv_map_cond _ n _ hbase (fun h hh => by
          show (0 : Int) ≤ 0
          omega)
      | vStr a => simpa [updStreakOpt, hv] using hbase

lemma streakInv_foldl {β : Type _} (F : DBState → β → DBState)
    (hF : ∀ s b, StreakInv s → StreakInv (F s b)) :
    ∀ (l : List β) (s : DBState), StreakInv s → StreakInv (l.foldl F s) := by
  intro l
  induction l with
  | nil => exact fun s hs => hs
  | cons b rest ih =>
    intro s hs
    rw [List.foldl_cons]
    exact ih (F s b) (hF s b hs)

lemma streakInv_stepA (now : DateTime) (s : DBState) (hinv : StreakInv s) :
    StreakInv (stepA now s) :=
  streakInv_foldl _ (fun st row h => streakInv_generate_report now row _ st h)
    (sync_states now s) s hinv

lemma inv_of_projStreak_eq (hs1 hs2 : List HabitRow)
    (hmap : hs1.map projStreak = hs2.map projStreak)
    (hinv : ∀ h ∈ hs2, 0 ≤ h.streak) : ∀ h ∈ hs1, 0 ≤ h.streak := by
  intro h hm
  have : projStreak h ∈ hs2.map projStreak := by
    rw [← hmap]
    exact List.mem_map_of_mem _ hm
  obtain ⟨a, ha, heq⟩ := List.mem_map.mp this
  have := congrArg Prod.snd heq
  simp only [projStreak] at this
  rw [← this]
  exact hinv a ha

lemma streakInv_stepB (now : DateTime) (s : DBState) (hinv : StreakInv s) :
    StreakInv (stepB now s) :=
  inv_of_projStreak_eq _ s.habits
    (refillFold_habits_map now (select_habits_to_fulfill s) projStreak (fun _ => rfl) s)
    hinv

lemma streakInv_create_habit (now : DateTime) (nm : String) (p : Periodicity)
    (tpl : List String) (s : DBState) (hinv : StreakInv s) :
    StreakInv (applyOp (.opCreateHabit now nm p tpl) s) := by
  simp only [applyOp]
  unfold create_habit
  by_cases hdup : s.habits.any (fun h => h.name == nm) = true
  · rw [if_pos hdup]
    exact hinv
  · rw [if_neg hdup]
    intro h hm
    rcases List.mem_append.mp hm with hm1 | hm1
    · exact hinv h hm1
    · rw [List.mem_singleton.mp hm1]

lemma streakInv_delete_habit (i : Int) (s : DBState) (hinv : StreakInv s) :
    StreakInv (applyOp (.opDeleteHabit i) s) := by
  simp only [applyOp]
  unfold delete_habit
  by_cases hfk : (s.habits.any (fun h => h.id_habit == i)
      && s.reports.any (fun r => r.id_habit == some (.vInt i))) = true
  · rw [if_pos hfk]
    exact hinv
  · rw [if_neg hfk]
    exact fun h hm => hinv h (List.mem_of_mem_filter hm)

lemma streakInv_applyOp (op : Op) (s : DBState) (hinv : StreakInv s) :
    StreakInv (applyOp op s) := by
  cases op with
  | opCreateHabit now nm p tpl => exact streakInv_create_habit now nm p tpl s hinv
  | opDeleteHabit i => exact streakInv_delete_habit i s hinv
  | opCreateTask now i d => exact streakInv_create_task now i d s hinv
  | opCompleteTask now i => exact streakInv_update_completed now i s hinv
  | opRefill now => exact streakInv_stepB now s hinv
  | opArchive now => exact streakInv_stepA now s hinv

lemma streakInv_runOps (ops : List Op) :
    ∀ s : DBState, StreakInv s → StreakInv (runOps ops s) := by
  induction ops with
  | nil => exact fun s hs => hs
  | cons op rest ih =>
    intro s hs
    exact ih (applyOp op s) (streakInv_applyOp op s hs)

/-! ## Streak frame lemmas: non-archive operations keep every streak -/

lemma find?_filter_stable (hs : List HabitRow) (p q : HabitRow → Bool) (h : HabitRow)
    (hf : hs.find? p = some h) (himp : ∀ a, p a = true → q a = true) :
    (hs.filter q).find? p = some h := by
  induction hs with
  | nil => simp at hf
  | cons a rest ih =>
    by_cases hp : p a = true
    · have ha : a = h := by
        have hstep : List.find? p (a :: rest) = some a := List.find?_cons_of_pos rest hp
        rw [hstep] at hf
        exact Option.some.inj hf
      rw [List.filter_cons_of_pos (himp a hp)]
      have hstep : List.find? p (a :: rest.filter q) = some a :=
        List.find?_cons_of_pos _ hp
      rw [hstep, ha]
    · have hstep : List.find? p (a :: rest) = List.find? p rest :=
        List.find?_cons_of_neg rest hp
      rw [hstep] at hf
      by_cases hq : q a = true
      · rw [List.filter_cons_of_pos hq]
        have hstep2 : List.find? p (a :: rest.filter q) = List.find? p (rest.filter q) :=
          List.find?_cons_of_neg _ hp
        rw [hstep2]
        exact ih hf
      · rw [List.filter_cons_of_neg hq]
        exact ih hf

lemma find?_streak_of_proj (i : Int) : ∀ l1 l2 : List HabitRow,
    l1.map projStreak = l2.map projStreak →
    (l1.find? (fun x => x.id_habit == i)).map (fun h => h.streak)
      = (l2.find? (fun x => x.id_habit == i)).map (fun h => h.streak) := by
  intro l1
  induction l1 with
  | nil =>
    intro l2 hm
    cases l2 with
    | nil => rfl
    | cons b r2 => simp at hm
  | cons a r1 ih =>
    intro l2 hm
    cases l2 with
    | nil => simp at hm
    | cons b r2 =>
      simp only [List.map_cons, List.cons.injEq] at hm
      obtain ⟨hab, hrest⟩ := hm
      have hid : a.id_habit = b.id_habit := congrArg Prod.fst hab
      have hstr : a.streak = b.streak := congrArg Prod.snd hab
      by_cases hc : (a.id_habit == i) = true
      · have hcb : (b.id_habit == i) = true := by rw [← hid]; exact hc
        have h1 : List.find? (fun x => x.id_habit == i) (a :: r1) = some a :=
          List.find?_cons_of_pos _ hc
        have h2 : List.find? (fun x => x.id_habit == i) (b :: r2) = some b :=
          List.find?_cons_of_pos _ hcb
        rw [h1, h2]
        simp [hstr]
      · have hcb : ¬ ((b.id_habit == i) = true) := by rw [← hid]; exact hc
        have h1 : List.find? (fun x => x.id_habit == i) (a :: r1)
            = List.find? (fun x => x.id_habit == i) r1 :=
          List.find?_cons_of_neg _ hc
        have h2 : List.find? (fun x => x.id_habit == i) (b :: r2)
            = List.find? (fun x => x.id_habit == i) r2 :=
          List.find?_cons_of_neg _ hcb
        rw [h1, h2]
        exact ih r2 hrest

lemma frame_create_habit (now : DateTime) (nm : String) (p : Periodicity)
    (tpl : List String) (s : DBState) (i : Int) (h h' : HabitRow)
    (hf : findHabit s i = some h)
    (hf' : findHabit (applyOp (.opCreateHabit now nm p tpl) s) i = some h') :
    h'.streak = h.streak := by
  simp only [applyOp] at hf'
  unfold create_habit at hf'
  by_cases hdup : s.habits.any (fun x => x.name == nm) = true
  · rw [if_pos hdup] at hf'
    rw [hf] at hf'
    rw [← Option.some.inj hf']
  · rw [if_neg hdup] at hf'
    unfold findHabit at hf hf'
    rw [List.find?_append, hf, Option.or_some] at hf'
    rw [← Option.some.inj hf']

lemma frame_delete_habit (j : Int) (s : DBState) (i : Int) (h h' : HabitRow)
    (hf : findHabit s i = some h)
    (hf' : findHabit (applyOp (.opDeleteHabit j) s) i = some h') :
    h'.streak = h.streak := by
  simp only [applyOp] at hf'
  unfold delete_habit at hf'
  by_cases hfk : (s.habits.any (fun x => x.id_habit == j)
      && s.reports.any (fun r => r.id_habit == some (.vInt j))) = true
  · rw [if_pos hfk] at hf'
    rw [hf] at hf'
    rw [← Option.some.inj hf']
  · rw [if_neg hfk] at hf'
    unfold findHabit at hf hf'
    by_cases hij : i = j
    · exfalso
      have hmem := List.mem_of_find?_eq_some hf'
      have h1 := (List.mem_filter.mp hmem).2
      have h2 := List.find?_some hf'
      simp only [bne_iff_ne, ne_eq] at h1
      simp only [beq_iff_eq] at h2
      exact h1 (h2.trans hij)
    · have hstable := find?_filter_stable s.habits (fun x => x.id_habit == i)
        (fun x => x.id_habit != j) h hf (fun a ha => by
          have haa : a.id_habit = i := by simpa using ha
          simp only [haa, bne_iff_ne, ne_eq]
          exact hij)
      rw [hstable] at hf'
      rw [← Option.some.inj hf']

lemma frame_create_task (now : DateTime) (j : Int) (d : String) (s : DBState)
    (i : Int) (h h' : HabitRow) (hf : findHabit s i = some h)
    (hf' : findHabit (applyOp (.opCreateTask now j d) s) i = some h') :
    h'.streak = h.streak := by
  simp only [applyOp] at hf'
  unfold create_task at hf'
  by_cases hex : s.habits.any (fun x => x.id_habit == j) = true
  · rw [if_pos hex] at hf'
    unfold findHabit at hf hf'
    unfold touchHabits at hf'
    rw [find?_map_pres _ _ _ (fun a => by
      by_cases ha : (a.id_habit == j) = true <;> simp [ha]), hf] at hf'
    rw [← Option.some.inj hf']
    by_cases hc : (h.id_habit == j) = true
    · simp [hc]
    · simp [hc]
  · rw [if_neg hex] at hf'
    rw [hf] at hf'
    rw [← Option.some.inj hf']

lemma frame_complete_task (now : DateTime) (j : Int) (s : DBState)
    (i : Int) (h h' : HabitRow) (hf : findHabit s i = some h)
    (hf' : findHabit (applyOp (.opCompleteTask now j) s) i = some h') :
    h'.streak = h.streak := by
  have hsame : findHabit (applyOp (.opCompleteTask now j) s) i = findHabit s i := rfl
  rw [hsame, hf] at hf'
  rw [← Option.some.inj hf']

lemma frame_refill (now : DateTime) (s : DBState)
    (i : Int) (h h' : HabitRow) (hf : findHabit s i = some h)
    (hf' : findHabit (applyOp (.opRefill now) s) i = some h') :
    h'.streak = h.streak := by
  have hmap : (stepB now s).habits.map projStreak = s.habits.map projStreak :=
    refillFold_habits_map now (select_habits_to_fulfill s) projStreak (fun _ => rfl) s
  have hproj := find?_streak_of_proj i ((stepB now s).habits) s.habits hmap
  have hf2 : findHabit (stepB now s) i = some h' := hf'
  unfold findHabit at hf hf2
  rw [hf, hf2] at hproj
  exact Option.some.inj hproj

/-- C10. Over every sequence of exposed operations a habit's streak stays
non-negative, and no operation other than the Step A archival pass changes
any habit's streak: habit creation, habit deletion, task creation, task
completion and refill all leave the streak of every habit they keep
unchanged (report queries read the state purely and mutate nothing). -/
theorem streak_nonneg_and_stepA_only (s0 : DBState) (hinv : StreakInv s0) :
    (∀ ops : List Op, StreakInv (runOps ops s0))
      ∧ ∀ op : Op, isArchive op = false →
          ∀ (i : Int) (h h' : HabitRow), findHabit s0 i = some h →
            findHabit (applyOp op s0) i = some h' → h'.streak = h.streak := by
  refine ⟨fun ops => streakInv_runOps ops s0 hinv, fun op hop i h h' hf hf' => ?_⟩
  cases op with
  | opCreateHabit now nm p tpl => exact frame_create_habit now nm p tpl s0 i h h' hf hf'
  | opDeleteHabit j => exact frame_delete_habit j s0 i h h' hf hf'
  | opCreateTask now j d => exact frame_create_task now j d s0 i h h' hf hf'
  | opCompleteTask now j => exact frame_complete_task now j s0 i h h' hf hf'
  | opRefill now => exact frame_refill now s0 i h h' hf hf'
  | opArchive now => simp [isArchive] at hop

theorem streak_nonneg_and_stepA_only_witness :
    StreakInv w10State
      ∧ ((∀ ops : List Op, StreakInv (runOps ops w10State))
        ∧ ∀ op : Op, isArchive op = false →
            ∀ (i : Int) (h h' : HabitRow), findHabit w10State i = some h →
              findHabit (applyOp op w10State) i = some h' → h'.streak = h.streak) :=
  ⟨by decide, streak_nonneg_and_stepA_only w10State (by decide)⟩

end HabitApp

